import Mathlib

/-!
# Country search: the search / filter / selection state of `src/App.jsx`

A shallow embedding of the `App` component: its six `useState` cells, its three
`useEffect` bodies, its two event handlers and `getCountryFlagEmoji`, together
with the pieces of the host they use (string methods, `URLSearchParams`, the
effect scheduling of React).

Strings are sequences of UTF-16 code units, as in JavaScript.  The Unicode case
conversions `toLowerCase` / `toUpperCase` are not code of the program; they are
taken as a parameter (`CaseMaps`) of which only the behaviour on Basic Latin is
fixed.  `asciiCase` is the instance used to evaluate the program on Basic Latin
inputs.
-/

namespace CountrySearch

/-! ## Strings -/

/-- A JavaScript string: its sequence of UTF-16 code units. -/
abbrev Str := List Nat

/-- The code units of a literal written with characters of the Basic
Multilingual Plane (one code unit per character). -/
def units (s : String) : Str := s.toList.map Char.toNat

/-- Upper-case image of a single Basic Latin code unit. -/
def asciiUpper (u : Nat) : Nat := if 97 ≤ u ∧ u ≤ 122 then u - 32 else u

/-- Lower-case image of a single Basic Latin code unit. -/
def asciiLower (u : Nat) : Nat := if 65 ≤ u ∧ u ≤ 90 then u + 32 else u

/-- The host's `String.prototype.toLowerCase` and `String.prototype.toUpperCase`.
On strings of Basic Latin code units they act unit by unit; nothing else is
assumed about them. -/
structure CaseMaps where
  toLowerCase : Str → Str
  toUpperCase : Str → Str
  lower_basic : ∀ s : Str, (∀ u ∈ s, u < 128) → toLowerCase s = s.map asciiLower
  upper_basic : ∀ s : Str, (∀ u ∈ s, u < 128) → toUpperCase s = s.map asciiUpper

/-- The case conversions that touch Basic Latin letters only. -/
def asciiCase : CaseMaps where
  toLowerCase := fun s => s.map asciiLower
  toUpperCase := fun s => s.map asciiUpper
  lower_basic := fun _ _ => rfl
  upper_basic := fun _ _ => rfl

/-- The code units removed by `String.prototype.trim` (ECMAScript WhiteSpace and
LineTerminator). -/
def isWhiteSpace (u : Nat) : Bool :=
  u == 0x09 || u == 0x0A || u == 0x0B || u == 0x0C || u == 0x0D || u == 0x20 ||
  u == 0xA0 || u == 0x1680 || (0x2000 ≤ u && u ≤ 0x200A) || u == 0x2028 ||
  u == 0x2029 || u == 0x202F || u == 0x205F || u == 0x3000 || u == 0xFEFF

/-- The method `String.prototype.trim`: white space removed at both ends. -/
def trim (s : Str) : Str :=
  ((s.dropWhile isWhiteSpace).reverse.dropWhile isWhiteSpace).reverse

/-- The method `String.prototype.includes(searchString)`: does `searchString`
occur at some position of `s`. -/
def includes (s searchString : Str) : Bool :=
  s.tails.any (fun rest => searchString.isPrefixOf rest)

/-- UTF-16 encoding of one code point. -/
def utf16Encode (cp : Nat) : Str :=
  if cp < 0x10000 then [cp]
  else [0xD800 + (cp - 0x10000) / 0x400, 0xDC00 + (cp - 0x10000) % 0x400]

/-- The function `String.fromCodePoint(...codePoints)`; `none` stands for the
`RangeError` thrown on a value above `0x10FFFF`. -/
def fromCodePoint (codePoints : List Nat) : Option Str :=
  if codePoints.all (fun cp => decide (cp ≤ 0x10FFFF))
  then some (codePoints.flatMap utf16Encode)
  else none

/-- The code points of a string, as the string iterator yields them: a high
surrogate followed by a low surrogate is one code point. -/
def codePoints : Str → List Nat
  | [] => []
  | [u] => [u]
  | u :: v :: rest =>
    if 0xD800 ≤ u ∧ u < 0xDC00 ∧ 0xDC00 ≤ v ∧ v < 0xE000
    then (0x10000 + (u - 0xD800) * 0x400 + (v - 0xDC00)) :: codePoints rest
    else u :: codePoints (v :: rest)

/-- The conversion of a string to a scalar-value string (`USVString`), which the
address interfaces apply to their arguments: a high surrogate followed by a low
surrogate is kept, every other surrogate code unit becomes U+FFFD. -/
def toUSVString : Str → Str
  | [] => []
  | [u] => if 0xD800 ≤ u ∧ u < 0xE000 then [0xFFFD] else [u]
  | u :: v :: rest =>
    if 0xD800 ≤ u ∧ u < 0xDC00 ∧ 0xDC00 ≤ v ∧ v < 0xE000
    then u :: v :: toUSVString rest
    else (if 0xD800 ≤ u ∧ u < 0xE000 then 0xFFFD else u) :: toUSVString (v :: rest)

/-! ## Data model -/

/-- One record of the fetched document.  Only `name` and `alpha2Code` are read by
the modelled code; the other fields are carried along. -/
structure Country where
  name : Str
  alpha2Code : Option Str
  flag : Option Str
  capital : Option Str
  region : Option Str
  subregion : Option Str
  population : Option Nat
deriving DecidableEq

/-- The six `useState` cells of `App`. -/
structure State where
  countries : List Country
  searchTerm : Str
  filteredCountries : List Country
  loading : Bool
  error : Option Str
  selectedCountry : Option Country

/-- The query parameters of an address: an ordered list of name/value pairs. -/
abbrev SearchParams := List (Str × Str)

/-- The component state together with the query parameters of
`window.location`. -/
structure World where
  st : State
  location : SearchParams

/-- The values passed to `useState` on the first render. -/
def initialState : State where
  countries := []
  searchTerm := []
  filteredCountries := []
  loading := true
  error := none
  selectedCountry := none

/-- The parameter name used by the program. -/
def countryKey : Str := units "country"

/-! ## `URLSearchParams` -/

/-- The method `URLSearchParams.get`: the value of the first pair named `name`.
The argument is a `USVString`. -/
def searchParamsGet (params : SearchParams) (name : Str) : Option Str :=
  (params.find? (fun kv => kv.1 == toUSVString name)).map (fun kv => kv.2)

/-- The method `URLSearchParams.delete`: every pair named `name` is removed.
The argument is a `USVString`. -/
def searchParamsDelete (params : SearchParams) (name : Str) : SearchParams :=
  params.filter (fun kv => kv.1 != toUSVString name)

/-- The method `URLSearchParams.set`: the first pair named `name` takes the value
and the other pairs of that name are removed; without such a pair one is
appended.  Both arguments are `USVString`s: what is stored is the converted
name and the converted value. -/
def searchParamsSet : SearchParams → Str → Str → SearchParams
  | [], name, value => [(toUSVString name, toUSVString value)]
  | kv :: rest, name, value =>
    if kv.1 = toUSVString name
    then (toUSVString name, toUSVString value) :: searchParamsDelete rest name
    else kv :: searchParamsSet rest name value

/-! ## Effects and handlers -/

/-- Body of the second `useEffect` (dependencies `[searchTerm, countries]`). -/
def filterEffect (cm : CaseMaps) (s : State) : State :=
  if trim s.searchTerm = [] then
    { s with filteredCountries := s.countries }
  else
    { s with filteredCountries := s.countries.filter (fun country =>
        includes (cm.toLowerCase country.name) (cm.toLowerCase s.searchTerm)) }

/-- Body of the third `useEffect` (dependency `[selectedCountry]`): the address
is rebuilt from `window.location` and put back with `replaceState`. -/
def urlSyncEffect (s : State) (location : SearchParams) : SearchParams :=
  match s.selectedCountry with
  | some c => searchParamsSet location countryKey c.name
  | none => searchParamsDelete location countryKey

/-- The handler `handleSearchChange`, applied to `e.target.value`. -/
def handleSearchChange (value : Str) (s : State) : State :=
  { s with searchTerm := value }

/-- The handler `handleCountryClick`. -/
def handleCountryClick (country : Country) (s : State) : State :=
  { s with selectedCountry := some country, searchTerm := country.name }

/-- The glyph returned for a missing code, as the literal stands in the source
file. -/
def placeholderGlyph : Str := [0xF8FF, 0xFC, 0xE8, 0x2265, 0xD4, 0x220F, 0xE8]

/-- The function `getCountryFlagEmoji`.  The argument is `none` for `undefined` /
`null`; the empty string is falsy as well. -/
def getCountryFlagEmoji (cm : CaseMaps) : Option Str → Option Str
  | none => some placeholderGlyph
  | some countryCode =>
    if countryCode = [] then some placeholderGlyph
    else fromCodePoint ((cm.toUpperCase countryCode).map (fun ch => 127397 + ch))

/-! ## Scheduling -/

/-- What the request of `fetchCountries` can come back with. -/
inductive FetchResult where
  /-- The promise of `fetch` is rejected with an error carrying `message`. -/
  | rejected (message : Str)
  /-- A response arrives; `ok` is `response.ok` and `body` is what
  `response.json()` settles to: the decoded array, or the message of the error
  it is rejected with. -/
  | response (ok : Bool) (body : Except Str (List Country))

/-- A commit after a state change: the filter effect runs when one of its
dependencies changed, then the address effect runs when its dependency changed.
The state updates of one handler are applied together. -/
def rerender (cm : CaseMaps) (filterDeps urlDeps : Bool) (w : World) : World :=
  let st := if filterDeps then filterEffect cm w.st else w.st
  { st := st
    location := if urlDeps then urlSyncEffect st w.location else w.location }

/-- The first commit: every effect runs once, in the order of declaration.  The
first one calls `fetchCountries`, which runs up to its first `await`
(`setLoading(true)`, request sent). -/
def mount (cm : CaseMaps) (location : SearchParams) : World :=
  rerender cm true true
    { st := { initialState with loading := true }, location := location }

/-- The statements of the `try` block of `fetchCountries` after the first
`await`: the new state, the record found for the address (if any), and the
message of the error thrown (if any). -/
def fetchCountriesTry (cm : CaseMaps) (r : FetchResult) (w : World) :
    State × Option Country × Option Str :=
  match r with
  | .rejected message => (w.st, none, some message)
  | .response ok body =>
    if !ok then (w.st, none, some (units "Failed to fetch countries data"))
    else
      match body with
      | .error message => (w.st, none, some message)
      | .ok data =>
        let s1 := { w.st with countries := data, filteredCountries := data }
        match searchParamsGet w.location countryKey with
        | none => (s1, none, none)
        | some countryName =>
          if countryName = [] then (s1, none, none)
          else
            match data.find? (fun c =>
                cm.toLowerCase c.name == cm.toLowerCase countryName) with
            | some found => ({ s1 with selectedCountry := some found }, some found, none)
            | none => (s1, none, none)

/-- The rest of `fetchCountries`, run when the request settles: `try`, `catch`
(`setError(err.message)`), `finally` (`setLoading(false)`), followed by the
commit.  The array held by `countries` is a new one exactly on success, and
`selectedCountry` changes exactly when a record was found. -/
def fetchCountriesDone (cm : CaseMaps) (r : FetchResult) (w : World) : World :=
  let t := fetchCountriesTry cm r w
  let s3 : State :=
    match t.2.2 with
    | some message => { t.1 with error := some message }
    | none => t.1
  let s4 : State := { s3 with loading := false }
  rerender cm (t.2.2.isNone) (t.2.1.isSome) { st := s4, location := w.location }

/-- A change of the search box: the handler, then the commit.  The filter effect
runs when the text differs from the previous one. -/
def searchChangeStep (cm : CaseMaps) (value : Str) (w : World) : World :=
  rerender cm (decide (value ≠ w.st.searchTerm)) false
    { w with st := handleSearchChange value w.st }

/-- A click on a list item: the handler, then the commit.  The filter effect
runs when the name differs from the previous text, the address effect when the
record differs from the previous selection (records are compared by their
fields). -/
def countryClickStep (cm : CaseMaps) (country : Country) (w : World) : World :=
  rerender cm (decide (country.name ≠ w.st.searchTerm))
    (decide (w.st.selectedCountry ≠ some country))
    { w with st := handleCountryClick country w.st }

/-- The two things a user can do once the list is shown. -/
inductive Event where
  | search (value : Str)
  | click (country : Country)

/-- One user event. -/
def step (cm : CaseMaps) (w : World) : Event → World
  | .search value => searchChangeStep cm value w
  | .click country => countryClickStep cm country w

/-- A session: the page is opened at an address with query parameters
`location`, the request settles with `r`, then the user events follow. -/
def session (cm : CaseMaps) (location : SearchParams) (r : FetchResult)
    (events : List Event) : World :=
  events.foldl (step cm) (fetchCountriesDone cm r (mount cm location))

/-- A session whose request succeeded with the array `data`. -/
def loadedSession (cm : CaseMaps) (location : SearchParams) (data : List Country)
    (events : List Event) : World :=
  session cm location (.response true (.ok data)) events

/-! ## Sample data -/

/-- A record with only a name. -/
def named (n : String) : Country where
  name := units n
  alpha2Code := none
  flag := none
  capital := none
  region := none
  subregion := none
  population := none

/-- A record whose name ends in an unpaired high surrogate: the letter X, then
U+D800. -/
def loneSurrogateRecord : Country where
  name := [0x58, 0xD800]
  alpha2Code := none
  flag := none
  capital := none
  region := none
  subregion := none
  population := none

/-- What holds of every state in which the list is on screen: the request
succeeded with `data`, the shown list is the filter of `data` by the current
text, and the address carries the name of the selection, as a scalar-value
string, and nothing else under `country`. -/
structure Consistent (cm : CaseMaps) (data : List Country) (w : World) : Prop where
  countries : w.st.countries = data
  filtered : w.st.filteredCountries = (filterEffect cm w.st).filteredCountries
  loading : w.st.loading = false
  error : w.st.error = none
  address : w.location.filter (fun kv => kv.1 == countryKey)
    = (w.st.selectedCountry.map (fun c => (countryKey, toUSVString c.name))).toList

/-! ## Strings: facts -/

theorem dropWhile_eq_nil_iff_all (p : Nat → Bool) (l : List Nat) :
    l.dropWhile p = [] ↔ ∀ u ∈ l, p u = true := by
  induction l with
  | nil => simp
  | cons a t ih =>
    by_cases h : p a = true
    · simp [List.dropWhile, h, ih]
    · simp [List.dropWhile, h]

theorem trim_eq_nil_iff (s : Str) : trim s = [] ↔ ∀ u ∈ s, isWhiteSpace u = true := by
  unfold trim
  rw [List.reverse_eq_nil_iff, dropWhile_eq_nil_iff_all]
  constructor
  · intro h
    by_contra hne
    push_neg at hne
    obtain ⟨u, hu, hun⟩ := hne
    have hne2 : s.dropWhile isWhiteSpace ≠ [] := by
      intro h0
      exact hun ((dropWhile_eq_nil_iff_all _ _).1 h0 u hu)
    obtain ⟨a, t, hat⟩ := List.exists_cons_of_ne_nil hne2
    have ha : isWhiteSpace a = true := h a (by simp [hat])
    have hhead := List.head_dropWhile_not isWhiteSpace s hne2
    simp [hat] at hhead
    rw [ha] at hhead
    exact absurd hhead (by simp)
  · intro h u hu
    have h0 := (dropWhile_eq_nil_iff_all isWhiteSpace s).2 h
    rw [h0] at hu
    simp at hu

theorem includes_iff (s t : Str) : includes s t = true ↔ t <:+: s := by
  unfold includes
  rw [List.any_eq_true, List.infix_iff_prefix_suffix]
  constructor
  · rintro ⟨r, hr, hp⟩
    exact ⟨r, List.isPrefixOf_iff_prefix.1 hp, (List.mem_tails r s).1 hr⟩
  · rintro ⟨r, hp, hs⟩
    exact ⟨r, (List.mem_tails r s).2 hs, List.isPrefixOf_iff_prefix.2 hp⟩

theorem includes_self (s : Str) : includes s s = true :=
  (includes_iff s s).2 List.infix_rfl

/-! ## Query parameters: facts -/

theorem toUSVString_countryKey : toUSVString countryKey = countryKey := by decide

/-- Reading a parameter looks at the first of the pairs that carry its name. -/
theorem searchParamsGet_eq_head (params : SearchParams) (name : Str) :
    searchParamsGet params name
      = ((params.filter (fun kv => kv.1 == toUSVString name)).head?).map
          (fun kv => kv.2) := by
  unfold searchParamsGet
  induction params with
  | nil => rfl
  | cons kv rest ih =>
    by_cases h : (kv.1 == toUSVString name) = true
    · simp [List.find?, List.filter, h]
    · simp only [Bool.not_eq_true] at h
      simp only [List.find?, List.filter, h]
      exact ih

theorem filter_searchParamsDelete (params : SearchParams) (name : Str) :
    (searchParamsDelete params name).filter (fun kv => kv.1 == toUSVString name) = [] := by
  unfold searchParamsDelete
  rw [List.filter_filter, List.filter_eq_nil_iff]
  intro kv _
  by_cases h : kv.1 = toUSVString name <;> simp [h]

theorem filter_searchParamsSet (params : SearchParams) (name value : Str) :
    (searchParamsSet params name value).filter (fun kv => kv.1 == toUSVString name)
      = [(toUSVString name, toUSVString value)] := by
  induction params with
  | nil => simp [searchParamsSet]
  | cons kv rest ih =>
    by_cases h : kv.1 = toUSVString name
    · simp [searchParamsSet, h, filter_searchParamsDelete]
    · simp [searchParamsSet, h, ih]

theorem searchParamsGet_set (params : SearchParams) (name value : Str) :
    searchParamsGet (searchParamsSet params name value) name
      = some (toUSVString value) := by
  rw [searchParamsGet_eq_head, filter_searchParamsSet]; rfl

theorem searchParamsGet_delete (params : SearchParams) (name : Str) :
    searchParamsGet (searchParamsDelete params name) name = none := by
  rw [searchParamsGet_eq_head, filter_searchParamsDelete]; rfl

theorem searchParamsGet_country (params : SearchParams) :
    searchParamsGet params countryKey
      = ((params.filter (fun kv => kv.1 == countryKey)).head?).map (fun kv => kv.2) := by
  have h := searchParamsGet_eq_head params countryKey
  rwa [toUSVString_countryKey] at h

theorem filter_delete_country (params : SearchParams) :
    (searchParamsDelete params countryKey).filter (fun kv => kv.1 == countryKey) = [] := by
  have h := filter_searchParamsDelete params countryKey
  rwa [toUSVString_countryKey] at h

theorem filter_set_country (params : SearchParams) (value : Str) :
    (searchParamsSet params countryKey value).filter (fun kv => kv.1 == countryKey)
      = [(countryKey, toUSVString value)] := by
  have h := filter_searchParamsSet params countryKey value
  rwa [toUSVString_countryKey] at h

/-- The pairs named `country` after the address effect: one pair holding the
name of the selected record as a scalar-value string, or none without a
selection. -/
theorem filter_urlSyncEffect (s : State) (location : SearchParams) :
    (urlSyncEffect s location).filter (fun kv => kv.1 == countryKey)
      = (s.selectedCountry.map (fun c => (countryKey, toUSVString c.name))).toList := by
  unfold urlSyncEffect
  cases h : s.selectedCountry with
  | none => simp [filter_delete_country]
  | some c => simp [filter_set_country]

/-! ## Sessions: facts -/

theorem trim_nil : trim [] = [] := rfl

theorem mount_st (cm : CaseMaps) (location : SearchParams) :
    (mount cm location).st = initialState := by
  simp [mount, rerender, filterEffect, initialState, trim_nil]

theorem mount_location (cm : CaseMaps) (location : SearchParams) :
    (mount cm location).location = searchParamsDelete location countryKey := by
  simp [mount, rerender, urlSyncEffect, filterEffect, initialState, trim_nil]

/-- The request settles after the first commit, when the address has lost its
`country` parameter: the `try` block never finds a name to restore. -/
theorem fetchCountriesTry_mount (cm : CaseMaps) (location : SearchParams)
    (data : List Country) :
    fetchCountriesTry cm (.response true (.ok data)) (mount cm location)
      = ({ initialState with countries := data, filteredCountries := data }, none, none) := by
  simp [fetchCountriesTry, mount_st, mount_location, searchParamsGet_delete]

theorem load_st (cm : CaseMaps) (location : SearchParams) (data : List Country) :
    (fetchCountriesDone cm (.response true (.ok data)) (mount cm location)).st
      = { initialState with countries := data, filteredCountries := data,
                            loading := false } := by
  simp [fetchCountriesDone, fetchCountriesTry_mount, rerender, filterEffect,
    initialState, trim_nil]

theorem load_location (cm : CaseMaps) (location : SearchParams) (data : List Country) :
    (fetchCountriesDone cm (.response true (.ok data)) (mount cm location)).location
      = searchParamsDelete location countryKey := by
  simp [fetchCountriesDone, fetchCountriesTry_mount, rerender, mount_location]

theorem consistent_load (cm : CaseMaps) (location : SearchParams) (data : List Country) :
    Consistent cm data
      (fetchCountriesDone cm (.response true (.ok data)) (mount cm location)) := by
  refine ⟨?_, ?_, ?_, ?_, ?_⟩
  · rw [load_st]
  · rw [load_st]; simp [filterEffect, initialState, trim_nil]
  · rw [load_st]
  · rw [load_st]; rfl
  · rw [load_st, load_location, filter_delete_country]; rfl

theorem filterEffect_filtered_congr (cm : CaseMaps) (s t : State)
    (hc : s.countries = t.countries) (hq : s.searchTerm = t.searchTerm) :
    (filterEffect cm s).filteredCountries = (filterEffect cm t).filteredCountries := by
  unfold filterEffect
  rw [hc, hq]
  split <;> rfl

theorem filterEffect_idem (cm : CaseMaps) (s : State) :
    filterEffect cm (filterEffect cm s) = filterEffect cm s := by
  unfold filterEffect
  split <;> simp_all

theorem consistent_search (cm : CaseMaps) (data : List Country) (w : World)
    (value : Str) (h : Consistent cm data w) :
    Consistent cm data (searchChangeStep cm value w) := by
  obtain ⟨h1, h2, h3, h4, h5⟩ := h
  by_cases hv : value = w.st.searchTerm
  · subst hv
    have hs : handleSearchChange w.st.searchTerm w.st = w.st := rfl
    simp only [searchChangeStep, rerender, hs, ne_eq, not_true_eq_false, decide_False,
      Bool.false_eq_true, if_false]
    exact ⟨h1, h2, h3, h4, h5⟩
  · simp only [searchChangeStep, rerender, ne_eq, hv, not_false_eq_true, decide_True,
      if_true, Bool.false_eq_true, if_false]
    refine ⟨?_, ?_, ?_, ?_, ?_⟩
    · simp only [filterEffect, handleSearchChange]; split <;> exact h1
    · rw [filterEffect_idem]
    · simp only [filterEffect, handleSearchChange]; split <;> exact h3
    · simp only [filterEffect, handleSearchChange]; split <;> exact h4
    · have : (filterEffect cm (handleSearchChange value w.st)).selectedCountry
          = w.st.selectedCountry := by
        simp only [filterEffect, handleSearchChange]; split <;> rfl
      rw [this]; exact h5

theorem filterEffect_fields (cm : CaseMaps) (s : State) :
    (filterEffect cm s).countries = s.countries ∧
    (filterEffect cm s).searchTerm = s.searchTerm ∧
    (filterEffect cm s).loading = s.loading ∧
    (filterEffect cm s).error = s.error ∧
    (filterEffect cm s).selectedCountry = s.selectedCountry := by
  unfold filterEffect
  split <;> exact ⟨rfl, rfl, rfl, rfl, rfl⟩

/-- The state after a click, whatever the scheduling decides: the handler's
writes, and the list filtered by the name of the clicked record. -/
theorem countryClickStep_st (cm : CaseMaps) (data : List Country) (w : World)
    (country : Country) (h : Consistent cm data w) :
    (countryClickStep cm country w).st
      = filterEffect cm (handleCountryClick country w.st) := by
  by_cases hv : country.name = w.st.searchTerm
  · have hf : (filterEffect cm (handleCountryClick country w.st)).filteredCountries
        = w.st.filteredCountries := by
      rw [h.filtered]
      exact filterEffect_filtered_congr cm _ _ rfl hv
    simp only [countryClickStep, rerender, ne_eq, hv, not_true_eq_false, decide_False,
      Bool.false_eq_true, if_false]
    obtain ⟨f1, f2, f3, f4, f5⟩ := filterEffect_fields cm (handleCountryClick country w.st)
    cases hfe : filterEffect cm (handleCountryClick country w.st) with
    | mk a b c d e f =>
      rw [hfe] at f1 f2 f3 f4 f5 hf
      simp only at f1 f2 f3 f4 f5 hf
      subst f1 f2 f3 f4 f5 hf
      simp [handleCountryClick, hv]
  · simp only [countryClickStep, rerender, ne_eq, hv, not_false_eq_true, decide_True,
      if_true]

theorem countryClickStep_address (cm : CaseMaps) (data : List Country) (w : World)
    (country : Country) (h : Consistent cm data w) :
    (countryClickStep cm country w).location.filter (fun kv => kv.1 == countryKey)
      = [(countryKey, toUSVString country.name)] := by
  by_cases hs : w.st.selectedCountry = some country
  · simp only [countryClickStep, rerender, ne_eq, hs, not_true_eq_false, decide_False,
      Bool.false_eq_true, if_false]
    rw [h.address, hs]; rfl
  · simp only [countryClickStep, rerender, ne_eq, hs, not_false_eq_true, decide_True,
      if_true]
    rw [filter_urlSyncEffect]
    have : ∀ s : State, s.selectedCountry = some country →
        (s.selectedCountry.map (fun c => (countryKey, toUSVString c.name))).toList
          = [(countryKey, toUSVString country.name)] := by
      intro s hs; rw [hs]; rfl
    apply this
    split
    · exact (filterEffect_fields cm _).2.2.2.2
    · rfl

theorem consistent_click (cm : CaseMaps) (data : List Country) (w : World)
    (country : Country) (h : Consistent cm data w) :
    Consistent cm data (countryClickStep cm country w) := by
  have hst := countryClickStep_st cm data w country h
  have had := countryClickStep_address cm data w country h
  obtain ⟨f1, f2, f3, f4, f5⟩ := filterEffect_fields cm (handleCountryClick country w.st)
  refine ⟨?_, ?_, ?_, ?_, ?_⟩
  · rw [hst, f1]; exact h.countries
  · rw [hst, filterEffect_idem]
  · rw [hst, f3]; exact h.loading
  · rw [hst, f4]; exact h.error
  · rw [had, hst, f5]; rfl

theorem consistent_foldl (cm : CaseMaps) (data : List Country) (events : List Event) :
    ∀ w : World, Consistent cm data w → Consistent cm data (events.foldl (step cm) w) := by
  induction events with
  | nil => intro w h; exact h
  | cons e rest ih =>
    intro w h
    rw [List.foldl_cons]
    apply ih
    cases e with
    | search value => exact consistent_search cm data w value h
    | click country => exact consistent_click cm data w country h

/-- Every state of a session whose request succeeded is consistent. -/
theorem consistent_loadedSession (cm : CaseMaps) (location : SearchParams)
    (data : List Country) (events : List Event) :
    Consistent cm data (loadedSession cm location data events) :=
  consistent_foldl cm data events _ (consistent_load cm location data)

/-! ## The filter -/

theorem filterEffect_filteredCountries (cm : CaseMaps) (s : State) :
    (filterEffect cm s).filteredCountries
      = if trim s.searchTerm = [] then s.countries
        else s.countries.filter (fun c =>
          decide (cm.toLowerCase s.searchTerm <:+: cm.toLowerCase c.name)) := by
  unfold filterEffect
  split
  · rfl
  · apply List.filter_congr
    intro c _
    by_cases h : cm.toLowerCase s.searchTerm <:+: cm.toLowerCase c.name
    · simp [h, (includes_iff _ _).2 h]
    · have : includes (cm.toLowerCase c.name) (cm.toLowerCase s.searchTerm) = false := by
        cases hi : includes (cm.toLowerCase c.name) (cm.toLowerCase s.searchTerm) with
        | false => rfl
        | true => exact absurd ((includes_iff _ _).1 hi) h
      simp [h, this]

/-- C1: for every dataset and every query, the list computed by the search
effect is the dataset itself when the trimmed query is empty, and otherwise
exactly the records whose lower-cased name has the lower-cased (untrimmed) query
as a contiguous substring; in both cases it is a sublist of the dataset (same
relative order, nothing added). -/
theorem C1_filter_effect (cm : CaseMaps) (s : State) :
    (filterEffect cm s).filteredCountries
      = (if trim s.searchTerm = [] then s.countries
         else s.countries.filter (fun c =>
           decide (cm.toLowerCase s.searchTerm <:+: cm.toLowerCase c.name)))
    ∧ ((filterEffect cm s).filteredCountries).Sublist s.countries := by
  refine ⟨filterEffect_filteredCountries cm s, ?_⟩
  rw [filterEffect_filteredCountries]
  split
  · exact List.Sublist.refl _
  · exact List.filter_sublist _

theorem filtered_of_consistent (cm : CaseMaps) (data : List Country) (w : World)
    (h : Consistent cm data w) :
    w.st.filteredCountries
      = if trim w.st.searchTerm = [] then data
        else data.filter (fun c =>
          decide (cm.toLowerCase w.st.searchTerm <:+: cm.toLowerCase c.name)) := by
  rw [h.filtered, filterEffect_filteredCountries, h.countries]

theorem searchChangeStep_searchTerm (cm : CaseMaps) (value : Str) (w : World) :
    (searchChangeStep cm value w).st.searchTerm = value := by
  unfold searchChangeStep rerender
  simp only [Bool.false_eq_true, if_false]
  split
  · exact (filterEffect_fields cm _).2.1
  · rfl

theorem searchChangeStep_filtered (cm : CaseMaps) (data : List Country) (w : World)
    (value : Str) (h : Consistent cm data w) :
    (searchChangeStep cm value w).st.filteredCountries
      = if trim value = [] then data
        else data.filter (fun c =>
          decide (cm.toLowerCase value <:+: cm.toLowerCase c.name)) := by
  rw [filtered_of_consistent cm data _ (consistent_search cm data w value h),
    searchChangeStep_searchTerm]

/-- C2, counterexample: with the dataset [Peru, Costa Rica] on screen, typing a
single space leaves both records in the list, while only Costa Rica has a name
that contains a space. -/
theorem C2_whitespace_query_keeps_all :
    (searchChangeStep asciiCase (units " ")
        (loadedSession asciiCase [] [named "Peru", named "Costa Rica"] [])).st.filteredCountries
      = [named "Peru", named "Costa Rica"]
    ∧ [named "Peru", named "Costa Rica"].filter (fun c =>
        decide (asciiCase.toLowerCase (units " ") <:+: asciiCase.toLowerCase c.name))
      = [named "Costa Rica"]
    ∧ (searchChangeStep asciiCase (units " ")
        (loadedSession asciiCase [] [named "Peru", named "Costa Rica"] [])).st.filteredCountries
      ≠ [named "Peru", named "Costa Rica"].filter (fun c =>
        decide (asciiCase.toLowerCase (units " ") <:+: asciiCase.toLowerCase c.name)) := by
  decide

/-- C2, amended: in every state of a loaded session, typing `q` makes the shown
list the whole dataset when `q` trims to the empty string (the empty query and
the queries made of white space), and otherwise the records of the dataset, in
order, whose lower-cased name contains the lower-cased `q`. -/
theorem C2_search_step (cm : CaseMaps) (location : SearchParams)
    (data : List Country) (events : List Event) (q : Str) :
    (searchChangeStep cm q (loadedSession cm location data events)).st.filteredCountries
      = (if trim q = [] then data
         else data.filter (fun c =>
           decide (cm.toLowerCase q <:+: cm.toLowerCase c.name)))
    ∧ (searchChangeStep cm [] (loadedSession cm location data events)).st.filteredCountries
      = data
    ∧ (searchChangeStep cm q (loadedSession cm location data events)).st.searchTerm = q
    ∧ (searchChangeStep cm q (loadedSession cm location data events)).st.countries = data := by
  have hc := consistent_loadedSession cm location data events
  refine ⟨searchChangeStep_filtered cm data _ q hc, ?_, searchChangeStep_searchTerm cm q _,
    (consistent_search cm data _ q hc).countries⟩
  rw [searchChangeStep_filtered cm data _ [] hc]
  simp [trim_nil]

/-! ## Selection and the address -/

/-- C3, failing input: the page is opened at `?country=France` and the request
returns a dataset holding the record France.  The first commit has already
removed the parameter when the request settles, so nothing is restored: no
record is selected and the address has no `country` parameter. -/
theorem C3_restore_lost_at_mount :
    searchParamsGet [(countryKey, units "France")] countryKey = some (units "France")
    ∧ searchParamsGet (mount asciiCase [(countryKey, units "France")]).location countryKey
        = none
    ∧ (loadedSession asciiCase [(countryKey, units "France")]
        [named "Peru", named "France"] []).st.selectedCountry = none
    ∧ searchParamsGet (loadedSession asciiCase [(countryKey, units "France")]
        [named "Peru", named "France"] []).location countryKey = none := by
  decide

theorem countryClickStep_eq (cm : CaseMaps) (data : List Country) (w : World)
    (country : Country) (h : Consistent cm data w) :
    (countryClickStep cm country w).st.selectedCountry = some country
    ∧ (countryClickStep cm country w).st.searchTerm = country.name
    ∧ (countryClickStep cm country w).st.countries = data := by
  rw [countryClickStep_st cm data w country h]
  obtain ⟨f1, f2, _, _, f5⟩ := filterEffect_fields cm (handleCountryClick country w.st)
  exact ⟨f5, f2, f1.trans h.countries⟩

/-- C4, counterexample: the dataset holds a record whose name is the letter X
followed by an unpaired high surrogate (the document text `"X\ud800"`).  After
a click on it the `country` parameter reads X followed by U+FFFD, which is not
the name of the record. -/
theorem C4_unpaired_surrogate_replaced :
    (countryClickStep asciiCase loneSurrogateRecord
        (loadedSession asciiCase [] [loneSurrogateRecord] [])).st.selectedCountry
      = some loneSurrogateRecord
    ∧ searchParamsGet (countryClickStep asciiCase loneSurrogateRecord
        (loadedSession asciiCase [] [loneSurrogateRecord] [])).location countryKey
      = some [0x58, 0xFFFD]
    ∧ searchParamsGet (countryClickStep asciiCase loneSurrogateRecord
        (loadedSession asciiCase [] [loneSurrogateRecord] [])).location countryKey
      ≠ some loneSurrogateRecord.name := by
  decide

/-- C4, amended: in every state of a loaded session, after a click on any record
`c` the address has exactly one `country` parameter and reading it gives
`c.name` converted to a scalar-value string (whatever was there before), which
is `c.name` itself exactly when `c.name` has no unpaired surrogate; the address
effect run after the handler writes that value from any state and address; run
without a selection it leaves no `country` parameter; and throughout a loaded
session reading the parameter gives the converted name of the selection,
nothing when there is none. -/
theorem C4_address_round_trip (cm : CaseMaps) (location : SearchParams)
    (data : List Country) (events : List Event) (c : Country) :
    searchParamsGet (countryClickStep cm c (loadedSession cm location data events)).location
        countryKey = some (toUSVString c.name)
    ∧ (searchParamsGet
          (countryClickStep cm c (loadedSession cm location data events)).location
          countryKey = some c.name
        ↔ toUSVString c.name = c.name)
    ∧ (countryClickStep cm c (loadedSession cm location data events)).location.filter
        (fun kv => kv.1 == countryKey) = [(countryKey, toUSVString c.name)]
    ∧ (∀ (s : State) (address : SearchParams),
        searchParamsGet (urlSyncEffect (handleCountryClick c s) address) countryKey
          = some (toUSVString c.name))
    ∧ (∀ (s : State) (address : SearchParams),
        searchParamsGet (urlSyncEffect { s with selectedCountry := none } address) countryKey
          = none
        ∧ (urlSyncEffect { s with selectedCountry := none } address).filter
            (fun kv => kv.1 == countryKey) = [])
    ∧ searchParamsGet (loadedSession cm location data events).location countryKey
        = (loadedSession cm location data events).st.selectedCountry.map
            (fun r => toUSVString r.name) := by
  have hc := consistent_loadedSession cm location data events
  have had := countryClickStep_address cm data _ c hc
  have hget : searchParamsGet
      (countryClickStep cm c (loadedSession cm location data events)).location countryKey
      = some (toUSVString c.name) := by
    rw [searchParamsGet_country, had]; rfl
  refine ⟨hget, ?_, had, ?_, ?_, ?_⟩
  · rw [hget]
    exact ⟨fun h => Option.some.inj h, fun h => congrArg some h⟩
  · intro s address
    exact searchParamsGet_set address countryKey c.name
  · intro s address
    exact ⟨searchParamsGet_delete address countryKey, filter_delete_country address⟩
  · rw [searchParamsGet_country, hc.address]
    cases (loadedSession cm location data events).st.selectedCountry <;> rfl

/-- C5: in every state of a loaded session (any earlier events, hence any prior
query) and for every record `c`, after a click on `c` the selection is `c`, the
query is `c.name`, and the shown list is the one that typing `c.name` produces,
from that state and from any other state of a session over the same dataset. -/
theorem C5_selection_query_coupling (cm : CaseMaps) (location : SearchParams)
    (data : List Country) (events others : List Event) (c : Country) :
    (countryClickStep cm c (loadedSession cm location data events)).st.selectedCountry
      = some c
    ∧ (countryClickStep cm c (loadedSession cm location data events)).st.searchTerm = c.name
    ∧ (countryClickStep cm c (loadedSession cm location data events)).st.filteredCountries
      = (searchChangeStep cm c.name
          (loadedSession cm location data events)).st.filteredCountries
    ∧ (countryClickStep cm c (loadedSession cm location data events)).st.filteredCountries
      = (searchChangeStep cm c.name
          (loadedSession cm location data others)).st.filteredCountries := by
  have hc := consistent_loadedSession cm location data events
  have ho := consistent_loadedSession cm location data others
  obtain ⟨h1, h2, _⟩ := countryClickStep_eq cm data _ c hc
  have hf := filtered_of_consistent cm data _ (consistent_click cm data _ c hc)
  rw [h2] at hf
  refine ⟨h1, h2, ?_, ?_⟩
  · rw [hf, searchChangeStep_filtered cm data _ c.name hc]
  · rw [hf, searchChangeStep_filtered cm data _ c.name ho]

theorem filter_eq_singleton_iff (l : List Country) (p : Country → Bool) (c : Country)
    (hl : l.Nodup) (hc : c ∈ l) (hp : p c = true) :
    l.filter p = [c] ↔ ∀ d ∈ l, d ≠ c → p d = false := by
  constructor
  · intro h d hd hne
    cases hpd : p d with
    | false => rfl
    | true =>
      have : d ∈ l.filter p := List.mem_filter.2 ⟨hd, hpd⟩
      rw [h] at this
      exact absurd (List.mem_singleton.1 this) hne
  · intro h
    have hcongr : l.filter p = l.filter (fun d => d == c) := by
      apply List.filter_congr
      intro d hd
      by_cases hdc : d = c
      · subst hdc; simp [hp]
      · simp [h d hd hdc, hdc]
    rw [hcongr, List.filter_beq, List.count_eq_one_of_mem hl hc]
    rfl

/-- C6, counterexample: the dataset [Niger, Nigeria] has pairwise distinct names,
and after a click on Niger the list shows both records, since "nigeria" contains
"niger". -/
theorem C6_click_keeps_longer_names :
    ([named "Niger", named "Nigeria"].map (fun r => r.name)).Nodup
    ∧ named "Niger" ∈ [named "Niger", named "Nigeria"]
    ∧ (countryClickStep asciiCase (named "Niger")
        (loadedSession asciiCase [] [named "Niger", named "Nigeria"] [])).st.filteredCountries
      = [named "Niger", named "Nigeria"]
    ∧ (countryClickStep asciiCase (named "Niger")
        (loadedSession asciiCase [] [named "Niger", named "Nigeria"] [])).st.filteredCountries
      ≠ [named "Niger"] := by
  decide

/-- C6, amended: for a dataset with pairwise distinct names and a record `c` of
it, in every state of a loaded session the list after a click on `c` contains
`c`, and it is exactly `[c]` if and only if the filter for the query `c.name`
keeps no other record: `c.name` does not trim to the empty string and the
lower-cased name of no other record contains the lower-cased `c.name`. -/
theorem C6_click_shows_only_clicked (cm : CaseMaps) (location : SearchParams)
    (data : List Country) (events : List Event) (c : Country)
    (hnames : (data.map (fun r => r.name)).Nodup) (hc : c ∈ data) :
    c ∈ (countryClickStep cm c (loadedSession cm location data events)).st.filteredCountries
    ∧ ((countryClickStep cm c (loadedSession cm location data events)).st.filteredCountries
        = [c]
      ↔ ∀ d ∈ data, d ≠ c →
          trim c.name ≠ [] ∧ ¬ (cm.toLowerCase c.name <:+: cm.toLowerCase d.name)) := by
  have hs := consistent_loadedSession cm location data events
  have hf := filtered_of_consistent cm data _ (consistent_click cm data _ c hs)
  rw [(countryClickStep_eq cm data _ c hs).2.1] at hf
  have hkeep : (countryClickStep cm c
      (loadedSession cm location data events)).st.filteredCountries
      = data.filter (fun d => decide (trim c.name = [] ∨
          cm.toLowerCase c.name <:+: cm.toLowerCase d.name)) := by
    rw [hf]
    split
    · rename_i ht
      simp [ht]
    · rename_i ht
      simp [ht]
  have hself : (fun d : Country => decide (trim c.name = [] ∨
      cm.toLowerCase c.name <:+: cm.toLowerCase d.name)) c = true := by
    simp [List.infix_rfl]
  rw [hkeep]
  refine ⟨List.mem_filter.2 ⟨hc, hself⟩, ?_⟩
  rw [filter_eq_singleton_iff data _ c (List.Nodup.of_map _ hnames) hc hself]
  constructor
  · intro h d hd hne
    have := h d hd hne
    simpa [not_or] using this
  · intro h d hd hne
    have := h d hd hne
    simpa [not_or] using this

/-- C6, witness: the dataset [Peru, Portugal, Spain] with a click on Portugal. -/
theorem C6_click_shows_only_clicked_witness :
    ([named "Peru", named "Portugal", named "Spain"].map (fun r => r.name)).Nodup
    ∧ named "Portugal" ∈ [named "Peru", named "Portugal", named "Spain"]
    ∧ (named "Portugal" ∈ (countryClickStep asciiCase (named "Portugal")
          (loadedSession asciiCase [] [named "Peru", named "Portugal", named "Spain"]
            [Event.search (units "p")])).st.filteredCountries
      ∧ ((countryClickStep asciiCase (named "Portugal")
          (loadedSession asciiCase [] [named "Peru", named "Portugal", named "Spain"]
            [Event.search (units "p")])).st.filteredCountries = [named "Portugal"]
        ↔ ∀ d ∈ [named "Peru", named "Portugal", named "Spain"], d ≠ named "Portugal" →
            trim (named "Portugal").name ≠ [] ∧
            ¬ (asciiCase.toLowerCase (named "Portugal").name
                <:+: asciiCase.toLowerCase d.name))) :=
  ⟨by decide, by decide,
    C6_click_shows_only_clicked asciiCase [] [named "Peru", named "Portugal", named "Spain"]
      [Event.search (units "p")] (named "Portugal") (by decide) (by decide)⟩

/-- C7, failing input: the page is opened at `?country=france` and the request
returns a dataset holding the record France, whose name equals the parameter up
to case.  The first commit removes the parameter before the request settles, so
after load the address has no `country` parameter at all: its value is not the
one it had before load, and no record is selected. -/
theorem C7_parameter_lost_at_mount :
    searchParamsGet [(countryKey, units "france")] countryKey = some (units "france")
    ∧ asciiCase.toLowerCase (named "France").name = asciiCase.toLowerCase (units "france")
    ∧ searchParamsGet (loadedSession asciiCase [(countryKey, units "france")]
        [named "France"] []).location countryKey = none
    ∧ searchParamsGet (loadedSession asciiCase [(countryKey, units "france")]
        [named "France"] []).location countryKey ≠ some (units "france")
    ∧ (loadedSession asciiCase [(countryKey, units "france")]
        [named "France"] []).st.selectedCountry = none := by
  decide

/-! ## The flag glyph -/

theorem asciiUpper_letter (a : Nat) (ha : (65 ≤ a ∧ a ≤ 90) ∨ (97 ≤ a ∧ a ≤ 122)) :
    65 ≤ asciiUpper a ∧ asciiUpper a ≤ 90 := by
  unfold asciiUpper
  split <;> omega

theorem utf16Encode_indicator (x : Nat) (hx : 65 ≤ x ∧ x ≤ 90) :
    utf16Encode (127397 + x) = [0xD83C, 56741 + x] := by
  unfold utf16Encode
  have h1 : ¬ (127397 + x < 0x10000) := by omega
  have h2 : (127397 + x - 0x10000) / 0x400 = 60 := by omega
  have h3 : (127397 + x - 0x10000) % 0x400 = 421 + x := by omega
  rw [if_neg h1, h2, h3]
  simp
  omega

/-- C8: without a code the result is the placeholder glyph; for a code of two
Basic Latin letters, upper or lower case, the result is the string of the two
surrogate pairs that encode the code points `127397 + uppercase(letter)`, first
letter first; each of these code points equals `127462 + (uppercase(letter) - 65)`
and lies in the regional-indicator range 127462..127487. -/
theorem C8_flag_glyph (cm : CaseMaps) (a b : Nat)
    (ha : (65 ≤ a ∧ a ≤ 90) ∨ (97 ≤ a ∧ a ≤ 122))
    (hb : (65 ≤ b ∧ b ≤ 90) ∨ (97 ≤ b ∧ b ≤ 122)) :
    getCountryFlagEmoji cm none = some placeholderGlyph
    ∧ (∃ glyph : Str, getCountryFlagEmoji cm (some [a, b]) = some glyph
        ∧ codePoints glyph = [127397 + asciiUpper a, 127397 + asciiUpper b]
        ∧ glyph.length = 4)
    ∧ 127397 + asciiUpper a = 127462 + (asciiUpper a - 65)
    ∧ 127397 + asciiUpper b = 127462 + (asciiUpper b - 65)
    ∧ (127462 ≤ 127397 + asciiUpper a ∧ 127397 + asciiUpper a ≤ 127487)
    ∧ (127462 ≤ 127397 + asciiUpper b ∧ 127397 + asciiUpper b ≤ 127487) := by
  have hxa := asciiUpper_letter a ha
  have hxb := asciiUpper_letter b hb
  have hup : cm.toUpperCase [a, b] = [asciiUpper a, asciiUpper b] := by
    rw [cm.upper_basic [a, b]]
    · rfl
    · intro u hu
      simp only [List.mem_cons, List.mem_singleton, List.not_mem_nil, or_false] at hu
      rcases hu with h | h <;> omega
  refine ⟨rfl, ⟨[0xD83C, 56741 + asciiUpper a, 0xD83C, 56741 + asciiUpper b], ?_, ?_, rfl⟩,
    by omega, by omega, by omega, by omega⟩
  · have hall : ([127397 + asciiUpper a, 127397 + asciiUpper b].all
        (fun cp => decide (cp ≤ 0x10FFFF))) = true := by
      simp only [List.all_cons, List.all_nil, Bool.and_true, Bool.and_eq_true,
        decide_eq_true_eq]
      omega
    simp only [getCountryFlagEmoji, hup, List.map_cons, List.map_nil, fromCodePoint, hall,
      if_true, List.flatMap_cons, List.flatMap_nil, utf16Encode_indicator _ hxa,
      utf16Encode_indicator _ hxb]
    simp
  · simp only [codePoints]
    have c1 : 0xD800 ≤ 0xD83C ∧ 0xD83C < 0xDC00 ∧ 0xDC00 ≤ 56741 + asciiUpper a
        ∧ 56741 + asciiUpper a < 0xE000 := by omega
    have c2 : 0xD800 ≤ 0xD83C ∧ 0xD83C < 0xDC00 ∧ 0xDC00 ≤ 56741 + asciiUpper b
        ∧ 56741 + asciiUpper b < 0xE000 := by omega
    rw [if_pos c1, if_pos c2]
    have e1 : 0x10000 + (0xD83C - 0xD800) * 0x400 + (56741 + asciiUpper a - 0xDC00)
        = 127397 + asciiUpper a := by omega
    have e2 : 0x10000 + (0xD83C - 0xD800) * 0x400 + (56741 + asciiUpper b - 0xDC00)
        = 127397 + asciiUpper b := by omega
    rw [e1, e2]

/-- C8, witness: the code "us". -/
theorem C8_flag_glyph_witness :
    getCountryFlagEmoji asciiCase none = some placeholderGlyph
    ∧ (∃ glyph : Str, getCountryFlagEmoji asciiCase (some [117, 115]) = some glyph
        ∧ codePoints glyph = [127397 + asciiUpper 117, 127397 + asciiUpper 115]
        ∧ glyph.length = 4)
    ∧ 127397 + asciiUpper 117 = 127462 + (asciiUpper 117 - 65)
    ∧ 127397 + asciiUpper 115 = 127462 + (asciiUpper 115 - 65)
    ∧ (127462 ≤ 127397 + asciiUpper 117 ∧ 127397 + asciiUpper 117 ≤ 127487)
    ∧ (127462 ≤ 127397 + asciiUpper 115 ∧ 127397 + asciiUpper 115 ≤ 127487) :=
  C8_flag_glyph asciiCase 117 115 (by decide) (by decide)

/-! ## Loading -/

/-- C9: whatever address the page is opened at, a request that is rejected, a
response that is not OK, and a body that fails to decode each end with `error`
set to the reason, `loading` false, and both `countries` and `filteredCountries`
empty; a request that succeeds ends with `error` unset, `loading` false, and
`countries` and `filteredCountries` both equal to the fetched list. -/
theorem C9_load_outcomes (cm : CaseMaps) (location : SearchParams) :
    (∀ message : Str,
      (session cm location (.rejected message) []).st.error = some message
      ∧ (session cm location (.rejected message) []).st.loading = false
      ∧ (session cm location (.rejected message) []).st.countries = []
      ∧ (session cm location (.rejected message) []).st.filteredCountries = [])
    ∧ (∀ body : Except Str (List Country),
      (session cm location (.response false body) []).st.error
        = some (units "Failed to fetch countries data")
      ∧ (session cm location (.response false body) []).st.loading = false
      ∧ (session cm location (.response false body) []).st.countries = []
      ∧ (session cm location (.response false body) []).st.filteredCountries = [])
    ∧ (∀ message : Str,
      (session cm location (.response true (.error message)) []).st.error = some message
      ∧ (session cm location (.response true (.error message)) []).st.loading = false
      ∧ (session cm location (.response true (.error message)) []).st.countries = []
      ∧ (session cm location (.response true (.error message)) []).st.filteredCountries = [])
    ∧ (∀ data : List Country,
      (session cm location (.response true (.ok data)) []).st.error = none
      ∧ (session cm location (.response true (.ok data)) []).st.loading = false
      ∧ (session cm location (.response true (.ok data)) []).st.countries = data
      ∧ (session cm location (.response true (.ok data)) []).st.filteredCountries = data) := by
  refine ⟨?_, ?_, ?_, ?_⟩
  · intro message
    simp [session, fetchCountriesDone, fetchCountriesTry, rerender, mount_st, initialState]
  · intro body
    simp [session, fetchCountriesDone, fetchCountriesTry, rerender, mount_st, initialState]
  · intro message
    simp [session, fetchCountriesDone, fetchCountriesTry, rerender, mount_st, initialState]
  · intro data
    simp [session, load_st, initialState]

/-! ## Typing leaves the selection alone -/

/-- C10: from every state and address, after a change of the search box and the
commit that follows, the selection, the dataset and the whole address (hence its
`country` parameter) are what they were. -/
theorem C10_search_keeps_selection (cm : CaseMaps) (q : Str) (w : World) :
    (searchChangeStep cm q w).st.selectedCountry = w.st.selectedCountry
    ∧ (searchChangeStep cm q w).st.countries = w.st.countries
    ∧ (searchChangeStep cm q w).location = w.location
    ∧ searchParamsGet (searchChangeStep cm q w).location countryKey
        = searchParamsGet w.location countryKey := by
  have hl : (searchChangeStep cm q w).location = w.location := by
    simp [searchChangeStep, rerender]
  refine ⟨?_, ?_, hl, by rw [hl]⟩
  · unfold searchChangeStep rerender
    simp only
    split
    · exact (filterEffect_fields cm _).2.2.2.2
    · rfl
  · unfold searchChangeStep rerender
    simp only
    split
    · exact (filterEffect_fields cm _).1
    · rfl

end CountrySearch
